import Mathlib

/-!
Shallow embedding of `setup.py`, a project-build orchestrator script.

File access and external collaborators (the packaging engine, the namespace
package scan, unittest discovery) are modelled as explicit inputs: a parsed
configuration becomes an association list of sections, a parsed lock file
becomes an association list of (package, optional version) entries, discovery
results become explicit lists, and the filesystem for the clean command is the
list of existing directories.  Python dicts are modelled as association lists
with first-match lookup; `dict(base, **upd)` is modelled so that `upd` values
replace `base` values for shared keys, as in Python.
-/

namespace Setup

/-- Lookup in a Python-dict-like association list: the value of the first
entry with the given key. -/
def dictGet {α : Type} (d : List (String × α)) (k : String) : Option α :=
  (d.find? (fun kv => kv.1 == k)).map (fun kv => kv.2)

/-- `d.get(k, dflt)` on a Python-dict-like association list. -/
def dictGetD {α : Type} (d : List (String × α)) (k : String) (dflt : α) : α :=
  (dictGet d k).getD dflt

/-- Python `dict(base, **upd)`: entries of `base` with values replaced from
`upd` where the key is shared, followed by the entries of `upd` whose keys are
new. For a shared key, `upd` supplies the resulting value. -/
def pyDictMerge (base upd : List (String × String)) : List (String × String) :=
  base.map (fun kv => (kv.1, (dictGet upd kv.1).getD kv.2))
    ++ upd.filter (fun kv => (dictGet base kv.1).isNone)

/-- Python `v.replace('$', '$$')` at the character-list level
(from `load_project_ini_file`, line 58). -/
def escDollarAux : List Char → List Char
  | [] => []
  | c :: cs => if c = '$' then '$' :: '$' :: escDollarAux cs else c :: escDollarAux cs

/-- Python `v.replace('$', '$$')` on strings. -/
def escDollar (s : String) : String := String.mk (escDollarAux s.data)

/-- The literal-fragment scan of `configparser.ExtendedInterpolation`: a `$`
followed by `$` denotes one literal `$`; a `$` followed by `{` starts a
placeholder reference and a `$` followed by anything else is an interpolation
syntax error, so neither yields a pure literal value (both are `none` here:
reference resolution is not needed, because escaped values never contain a
bare `$`).  Any other character stands for itself. -/
def interpLiteralAux : List Char → Option (List Char)
  | [] => some []
  | c :: cs =>
    if c = '$' then
      match cs with
      | [] => none
      | d :: ds => if d = '$' then (interpLiteralAux ds).map (fun r => '$' :: r) else none
    else (interpLiteralAux cs).map (fun r => c :: r)

/-- Re-parsing a value through the interpolation engine, restricted to values
that are pure literals after unescaping. -/
def interpLiteral (s : String) : Option String :=
  (interpLiteralAux s.data).map String.mk

/-- Python `str.splitlines` at the character-list level, for strings whose
only line break is `\n` (the line break `configparser` joins multi-line
values with): splits at each `\n`, keeping interior and leading empty lines
and dropping a trailing empty fragment. -/
def splitlinesAux : List Char → List (List Char)
  | [] => []
  | c :: cs =>
    if c = '\n' then [] :: splitlinesAux cs
    else
      match splitlinesAux cs with
      | [] => [[c]]
      | l :: ls => (c :: l) :: ls

/-- Python `str.splitlines` on strings (for `\n`-separated values). -/
def pySplitlines (s : String) : List String :=
  (splitlinesAux s.data).map String.mk

/-- A parsed INI configuration: ordered sections, each an ordered list of
(key, raw value) entries. -/
structure IniConfig where
  sections : List (String × List (String × String))
deriving DecidableEq

/-- `config_parser.has_section` / section access, as first-match lookup. -/
def sectGet (cfg : IniConfig) (name : String) : Option (List (String × String)) :=
  dictGet cfg.sections name

/-- `config_parser[name] = items`: `ConfigParser.__setitem__` removes an
existing section of that name and re-adds the section at the end. -/
def setSection (cfg : IniConfig) (name : String) (items : List (String × String)) : IniConfig :=
  ⟨cfg.sections.filter (fun sv => !(sv.1 == name)) ++ [(name, items)]⟩

/-- `load_project_ini_file` (lines 57-65): escape every process environment
value, then install the environment section: if the section exists in the
file, it becomes `dict(file_section, **esc_env_vars)`; otherwise it is created
holding exactly the escaped environment.  The parsed file and the process
environment are explicit inputs. -/
def load_project_ini_file (fileCfg : IniConfig) (environment_section : String)
    (env : List (String × String)) : IniConfig :=
  let esc_env_vars : List (String × String) := env.map (fun kv => (kv.1, escDollar kv.2))
  match sectGet fileCfg environment_section with
  | some sec => setSection fileCfg environment_section (pyDictMerge sec esc_env_vars)
  | none => setSection fileCfg environment_section esc_env_vars

/-- `load_entry_points` (lines 76-80): `None` when the section is absent,
otherwise each key mapped to `value.splitlines()`. -/
def load_entry_points (cfg : IniConfig) (entry_point_section : String) :
    Option (List (String × List String)) :=
  match sectGet cfg entry_point_section with
  | none => none
  | some items => some (items.map (fun kv => (kv.1, pySplitlines kv.2)))

/-- `get_deps_from_pipfile` (lines 42-46): the parsed lock file is an
association list from section name to entries, each entry a package name with
its optional recorded version; the result concatenates each package with its
version, the empty string when none is recorded.  A missing section yields
`\x7b\x7d` hence the empty list. -/
def get_deps_from_pipfile (pipfile_content : List (String × List (String × Option String)))
    (sectionName : String) : List String :=
  (dictGetD pipfile_content sectionName []).map (fun pd => pd.1 ++ pd.2.getD "")

/-- `get_deps_from_requirements` (lines 49-50): the requirements file content
split into lines. -/
def get_deps_from_requirements (requirements_content : String) : List String :=
  pySplitlines requirements_content

/-- `get_deps` (lines 53-54): lock mode reads the `default` section of the
lock file; otherwise the flat requirements list is used. -/
def get_deps (use_pipfile : Bool)
    (pipfile_content : List (String × List (String × Option String)))
    (requirements_content : String) : List String :=
  if use_pipfile then get_deps_from_pipfile pipfile_content "default"
  else get_deps_from_requirements requirements_content

/-- `find_resources_packages` (lines 68-69): keep the discovered resource
packages not listed among the excluded packages.  The namespace-package scan
of the resources folder is an explicit input. -/
def find_resources_packages (resources_pkgs : List String)
    (excluded_packages : List String) : List String :=
  resources_pkgs.filter (fun pkg => !(excluded_packages.contains pkg))

/-- `to_packages_dir` (lines 72-73): map each dotted package name to
`folder_path/name-with-dots-replaced-by-slashes` in posix form. -/
def to_packages_dir (folder_path : String) (packages : List String) :
    List (String × String) :=
  packages.map (fun pkg => (pkg, folder_path ++ "/" ++ pkg.replace "." "/"))

/-- `SRC_FOLDER` (line 17). -/
def SRC_FOLDER : String := "src/main/python"

/-- `RESOURCES_FOLDER` (line 18). -/
def RESOURCES_FOLDER : String := "src/main/resources"

/-- `TEST_SRC_FOLDER` (line 20). -/
def TEST_SRC_FOLDER : String := "src/test/python"

/-- `TEST_RESOURCES_FOLDER` (line 21). -/
def TEST_RESOURCES_FOLDER : String := "src/test/resources"

/-- `Path(rel).absolute().as_posix()`: the relative layout root resolved
against the working directory, in posix form. -/
def absolutize (cwd rel : String) : String := cwd ++ "/" ++ rel

/-- The `sys.path` configuration of the main block (lines 250-253): four
`sys_path.append` calls, one per layout root, in source order.  The working
directory and the pre-existing `sys.path` entries are explicit inputs. -/
def setup_sys_path (cwd : String) (sys_path : List String) : List String :=
  let p1 := sys_path ++ [absolutize cwd SRC_FOLDER]
  let p2 := p1 ++ [absolutize cwd RESOURCES_FOLDER]
  let p3 := p2 ++ [absolutize cwd TEST_SRC_FOLDER]
  p3 ++ [absolutize cwd TEST_RESOURCES_FOLDER]

/-- The four configured layout roots in the order they are appended. -/
def sysPathRoots (cwd : String) : List String :=
  [absolutize cwd SRC_FOLDER, absolutize cwd RESOURCES_FOLDER,
   absolutize cwd TEST_SRC_FOLDER, absolutize cwd TEST_RESOURCES_FOLDER]

/-- The four boolean options of `CleanCommand` (lines 173-177). -/
structure CleanOptions where
  build : Bool
  dist : Bool
  egg_info : Bool
  all : Bool
deriving DecidableEq

/-- `CleanCommand.finalize_options` (lines 186-192): with no flag set, `all`
is turned on; with `all` on, `build`, `dist` and `egg_info` are all turned
on. -/
def clean_finalize_options (o : CleanOptions) : CleanOptions :=
  let o1 := if !(o.build || o.dist || o.egg_info || o.all) then
    { o with all := true } else o
  if o1.all then { o1 with build := true, dist := true, egg_info := true } else o1

/-- `Path.is_dir` over the filesystem model: the list of directories that
exist. -/
def is_dir (fs : List String) (p : String) : Bool := fs.contains p

/-- `shutil.rmtree`: removes an existing directory; on a path that does not
exist it raises, modelled as `none`. -/
def rmtree (fs : List String) (p : String) : Option (List String) :=
  if fs.contains p then some (fs.filter (fun q => !(q == p))) else none

/-- `CleanCommand._rmdir_if_exists` (lines 208-212): remove the directory
only when it exists; otherwise do nothing. -/
def rmdir_if_exists (fs : List String) (p : String) : Option (List String) :=
  if is_dir fs p then rmtree fs p else some fs

/-- One namespace package found under the test root by
`find_namespace_packages`: whether its directory has an `__init__.py` marker
file, and the test cases that `defaultTestLoader.discover` scoped to its
directory yields. -/
structure NsPkg where
  name : String
  hasInitFile : Bool
  scopedTests : List String
deriving DecidableEq

/-- The test root as the Test Command observes it: the test cases the
top-level `defaultTestLoader.discover` pass yields, and the namespace
packages found under the root with their scoped discovery results. -/
structure TestRootModel where
  topTests : List String
  nsPkgs : List NsPkg
deriving DecidableEq

/-- `TestCommand._add_namespace_pkg_tests_workaround` (lines 130-138): for
each namespace package found under the test root, when its directory lacks
`__init__.py`, re-run discovery scoped to the package directory and add its
tests to the suite when it yields at least one test case. -/
def add_namespace_pkg_tests_workaround (nsPkgs : List NsPkg)
    (default_test_suite : List String) : List String :=
  nsPkgs.foldl
    (fun suite pkg =>
      if pkg.hasInitFile then suite
      else if 0 < pkg.scopedTests.length then suite ++ pkg.scopedTests else suite)
    default_test_suite

/-- The suite `TestCommand.run` (lines 113-121) hands to the runner: the
top-level discovery result after the namespace-package workaround. -/
def test_run_suite (root : TestRootModel) : List String :=
  add_namespace_pkg_tests_workaround root.nsPkgs root.topTests

/-! Helper lemmas about the dictionary model. -/

lemma dictGet_cons {α : Type} (k0 : String) (v0 : α) (rest : List (String × α)) (k : String) :
    dictGet ((k0, v0) :: rest) k = if k0 = k then some v0 else dictGet rest k := by
  by_cases h : k0 = k <;> simp [dictGet, h]

lemma dictGet_append {α : Type} (l1 l2 : List (String × α)) (k : String) :
    dictGet (l1 ++ l2) k = (dictGet l1 k).or (dictGet l2 k) := by
  simp only [dictGet, List.find?_append]
  cases l1.find? (fun kv => kv.1 == k) <;> simp

lemma dictGet_map_val {α β : Type} (f : α → β) (l : List (String × α)) (k : String) :
    dictGet (l.map (fun kv => (kv.1, f kv.2))) k = (dictGet l k).map f := by
  induction l with
  | nil => rfl
  | cons kv rest ih =>
    obtain ⟨k0, v0⟩ := kv
    by_cases h : k0 = k <;> simp [dictGet_cons, h, ih]

lemma dictGet_mergeLeft (upd base : List (String × String)) (k : String) :
    dictGet (base.map (fun kv => (kv.1, (dictGet upd kv.1).getD kv.2))) k =
      (dictGet base k).map (fun v => (dictGet upd k).getD v) := by
  induction base with
  | nil => rfl
  | cons kv rest ih =>
    obtain ⟨k0, v0⟩ := kv
    by_cases h : k0 = k
    · subst h; simp [dictGet_cons]
    · simp [dictGet_cons, h, ih]

lemma dictGet_pyDictMerge (base upd : List (String × String)) (k fv uv : String)
    (hb : dictGet base k = some fv) (hu : dictGet upd k = some uv) :
    dictGet (pyDictMerge base upd) k = some uv := by
  unfold pyDictMerge
  rw [dictGet_append, dictGet_mergeLeft, hb, hu]
  rfl

lemma dictGet_filter_ne {α : Type} (l : List (String × α)) (name : String) :
    dictGet (l.filter (fun sv => !(sv.1 == name))) name = none := by
  simp only [dictGet, Option.map_eq_none', List.find?_eq_none]
  intro x hx
  have hne := (List.mem_filter.mp hx).2
  simp only [Bool.not_eq_true'] at hne
  simp [hne]

lemma sectGet_setSection_self (cfg : IniConfig) (name : String)
    (items : List (String × String)) :
    sectGet (setSection cfg name items) name = some items := by
  unfold sectGet setSection
  show dictGet (_ ++ [(name, items)]) name = some items
  rw [dictGet_append, dictGet_filter_ne]
  simp [dictGet]

/-! Helper lemmas for the clean command model. -/

lemma filter_ne_self_of_not_contains (fs : List String) (p : String)
    (h : fs.contains p = false) :
    fs.filter (fun q => !(q == p)) = fs := by
  apply List.filter_eq_self.mpr
  intro a ha
  simp only [Bool.not_eq_true', beq_eq_false_iff_ne, ne_eq]
  intro hap
  subst hap
  exact absurd (List.elem_iff.mpr ha) (by simp [List.contains] at h; simp [h])

lemma contains_filter_ne (fs : List String) (p : String) :
    (fs.filter (fun q => !(q == p))).contains p = false := by
  by_contra h
  have hp : p ∈ fs.filter (fun q => !(q == p)) :=
    List.elem_iff.mp (Bool.of_not_eq_false h)
  have := (List.mem_filter.mp hp).2
  simp at this

/-! Helper lemmas for the escape / interpolation round trip. -/

lemma escDollarAux_count (cs : List Char) :
    (escDollarAux cs).count '$' = 2 * cs.count '$' := by
  induction cs with
  | nil => rfl
  | cons c cs ih =>
    by_cases h : c = '$'
    · subst h
      simp [escDollarAux, List.count_cons, ih]
      omega
    · simp [escDollarAux, List.count_cons, h, ih]

lemma interpLiteralAux_escDollarAux (cs : List Char) :
    interpLiteralAux (escDollarAux cs) = some cs := by
  induction cs with
  | nil => rfl
  | cons c cs ih =>
    by_cases h : c = '$'
    · subst h
      simp [escDollarAux, interpLiteralAux, ih]
    · simp only [escDollarAux, if_neg h]
      unfold interpLiteralAux
      simp [h, ih]

/-! Helper lemma for the namespace-package workaround. -/

lemma add_namespace_pkg_tests_workaround_eq (nsPkgs : List NsPkg) (suite : List String) :
    add_namespace_pkg_tests_workaround nsPkgs suite =
      suite ++ (nsPkgs.filter
          (fun p => !p.hasInitFile && decide (0 < p.scopedTests.length))).flatMap
        (fun p => p.scopedTests) := by
  induction nsPkgs generalizing suite with
  | nil => simp [add_namespace_pkg_tests_workaround]
  | cons pkg rest ih =>
    simp only [add_namespace_pkg_tests_workaround, List.foldl_cons] at *
    rw [ih]
    by_cases h1 : pkg.hasInitFile
    · simp [h1, List.filter_cons]
    · by_cases h2 : 0 < pkg.scopedTests.length
      · simp [h1, h2, List.filter_cons, List.append_assoc]
      · have hempty : pkg.scopedTests = [] :=
          List.length_eq_zero.mp (Nat.le_zero.mp (Nat.not_lt.mp h2))
        simp [h1, h2, List.filter_cons, hempty]

/-! Claim theorems. -/

/-- C1 counterexample: with a configuration file whose `ENV` section sets
`path` to `/from-file` and a process environment that sets `path` to
`/from-env`, `load_project_ini_file` keeps the environment's value, not the
file's value, so the claim "the resulting config holds the file's value" is
false at this input. -/
theorem C1_counterexample :
    load_project_ini_file ⟨[("ENV", [("path", "/from-file")])]⟩ "ENV"
        [("path", "/from-env")]
      = ⟨[("ENV", [("path", "/from-env")])]⟩ ∧
    ("/from-env" : String) ≠ "/from-file" := by
  constructor
  · rfl
  · decide

/-- C1 (amended): when the environment section exists in the file, for every
key present both in the file's environment section and in the process
environment, the loaded configuration holds the escaped environment value:
environment values overwrite file values for the same key. -/
theorem C1_env_overrides_file (fileCfg : IniConfig) (envSection : String)
    (env sec : List (String × String)) (k fv ev : String)
    (hsec : sectGet fileCfg envSection = some sec)
    (hf : dictGet sec k = some fv)
    (he : dictGet env k = some ev) :
    (sectGet (load_project_ini_file fileCfg envSection env) envSection).isSome = true ∧
    dictGet ((sectGet (load_project_ini_file fileCfg envSection env) envSection).getD []) k
      = some (escDollar ev) := by
  have hres : sectGet (load_project_ini_file fileCfg envSection env) envSection
      = some (pyDictMerge sec (env.map (fun kv => (kv.1, escDollar kv.2)))) := by
    unfold load_project_ini_file
    rw [hsec]
    exact sectGet_setSection_self _ _ _
  rw [hres]
  refine ⟨rfl, ?_⟩
  show dictGet (pyDictMerge sec (env.map (fun kv => (kv.1, escDollar kv.2)))) k
    = some (escDollar ev)
  apply dictGet_pyDictMerge sec _ k fv (escDollar ev) hf
  rw [dictGet_map_val escDollar env k, he]
  rfl

/-- C1 witness: the amended theorem applied to the concrete configuration and
environment of the counterexample. -/
theorem C1_env_overrides_file_witness :
    (sectGet (load_project_ini_file ⟨[("ENV", [("path", "/from-file")])]⟩ "ENV"
        [("path", "/from-env")]) "ENV").isSome = true ∧
    dictGet ((sectGet (load_project_ini_file ⟨[("ENV", [("path", "/from-file")])]⟩ "ENV"
        [("path", "/from-env")]) "ENV").getD []) "path" = some (escDollar "/from-env") :=
  C1_env_overrides_file ⟨[("ENV", [("path", "/from-file")])]⟩ "ENV"
    [("path", "/from-env")] [("path", "/from-file")] "path" "/from-file" "/from-env"
    (by decide) (by decide) (by decide)

/-- C2 counterexample: with one pre-existing search-path entry, the main
block's `sys.path` setup leaves that entry first and none of the four layout
roots before it, so the claim that the roots are prepended before all
pre-existing entries is false at this input. -/
theorem C2_counterexample :
    (setup_sys_path "/cwd" ["preexisting"]).head? = some "preexisting" ∧
    "preexisting" ∉ sysPathRoots "/cwd" := by
  constructor
  · rfl
  · decide

/-- C2 (amended): before any command runs, the four layout roots (source,
resource, test-source, test-resource) are appended, in that order, after all
pre-existing entries of the module-resolution search list. -/
theorem C2_roots_appended (cwd : String) (sys_path : List String) :
    setup_sys_path cwd sys_path = sys_path ++ sysPathRoots cwd ∧
    (setup_sys_path cwd sys_path).take sys_path.length = sys_path ∧
    (setup_sys_path cwd sys_path).drop sys_path.length = sysPathRoots cwd := by
  have h : setup_sys_path cwd sys_path = sys_path ++ sysPathRoots cwd := by
    simp [setup_sys_path, sysPathRoots]
  refine ⟨h, ?_, ?_⟩
  · rw [h, List.take_left]
  · rw [h, List.drop_left]

/-- C3 counterexample: a configuration whose entry-point section holds the
multi-line value beginning with an empty line (the form `configparser` yields
for an indented multi-line value).  `load_entry_points` keeps the empty line,
so the claim that it returns only the non-empty lines is false at this
input. -/
theorem C3_counterexample :
    load_entry_points ⟨[("PROJECT.ENTRY_POINTS", [("console_scripts", "\na = b")])]⟩
        "PROJECT.ENTRY_POINTS"
      = some [("console_scripts", ["", "a = b"])] ∧
    load_entry_points ⟨[("PROJECT.ENTRY_POINTS", [("console_scripts", "\na = b")])]⟩
        "PROJECT.ENTRY_POINTS"
      ≠ some [("console_scripts",
          (pySplitlines "\na = b").filter (fun l => !(l == "")))] := by
  constructor
  · rfl
  · decide

/-- C3 (amended): the Entry Point Loader returns the absent sentinel exactly
when the entry-point section is not present in the configuration; otherwise,
for every key in that section, it returns the key mapped to the ordered
sequence of the lines of the key's multi-line value as split by `splitlines`
(empty lines included), with no further validation of specifier syntax. -/
theorem C3_entry_points (cfg : IniConfig) (s : String) :
    (load_entry_points cfg s = none ↔ sectGet cfg s = none) ∧
    (∀ items k v, sectGet cfg s = some items → dictGet items k = some v →
      load_entry_points cfg s
        = some (items.map (fun kv => (kv.1, pySplitlines kv.2))) ∧
      dictGet ((load_entry_points cfg s).getD []) k = some (pySplitlines v)) := by
  constructor
  · unfold load_entry_points
    cases h : sectGet cfg s <;> simp [h]
  · intro items k v hs hv
    have hload : load_entry_points cfg s
        = some (items.map (fun kv => (kv.1, pySplitlines kv.2))) := by
      unfold load_entry_points
      rw [hs]
    refine ⟨hload, ?_⟩
    rw [hload]
    show dictGet (items.map (fun kv => (kv.1, pySplitlines kv.2))) k
      = some (pySplitlines v)
    rw [dictGet_map_val pySplitlines items k, hv]
    rfl

/-- C3 witness: the amended theorem applied to a concrete configuration with
one entry-point group whose value is `"\na = b"`. -/
theorem C3_entry_points_witness :
    load_entry_points ⟨[("PROJECT.ENTRY_POINTS", [("cs", "\na = b")])]⟩
        "PROJECT.ENTRY_POINTS"
      = some ([("cs", "\na = b")].map (fun kv => (kv.1, pySplitlines kv.2))) ∧
    dictGet ((load_entry_points ⟨[("PROJECT.ENTRY_POINTS", [("cs", "\na = b")])]⟩
        "PROJECT.ENTRY_POINTS").getD []) "cs" = some (pySplitlines "\na = b") :=
  (C3_entry_points ⟨[("PROJECT.ENTRY_POINTS", [("cs", "\na = b")])]⟩
      "PROJECT.ENTRY_POINTS").2
    [("cs", "\na = b")] "cs" "\na = b" (by decide) (by decide)

/-- C4: for every environment variable value containing a dollar sign, the
escaped value has every dollar doubled (its dollar count is twice the
original's) and re-parsing the escaped value through the
extended-interpolation literal scan yields back the original value. -/
theorem C4_escape_roundtrip (v : String) (_h : '$' ∈ v.data) :
    (escDollar v).data.count '$' = 2 * v.data.count '$' ∧
    interpLiteral (escDollar v) = some v := by
  constructor
  · show (escDollarAux v.data).count '$' = 2 * v.data.count '$'
    exact escDollarAux_count v.data
  · show (interpLiteralAux (escDollarAux v.data)).map String.mk = some v
    rw [interpLiteralAux_escDollarAux v.data]
    rfl

/-- C4 witness: the round trip at the concrete value `"a$b"`. -/
theorem C4_escape_roundtrip_witness :
    ('$' ∈ ("a$b" : String).data) ∧
    ((escDollar "a$b").data.count '$' = 2 * ("a$b" : String).data.count '$' ∧
     interpLiteral (escDollar "a$b") = some "a$b") :=
  ⟨by decide, C4_escape_roundtrip "a$b" (by decide)⟩

/-- C5: in lock mode the Dependency Lister reads the lock file's `default`
section and returns, for each entry in order, the package name concatenated
with its recorded version constraint (the empty string when no version is
recorded); in particular on the lock file
`default -> requests -> version ==2.0` it returns `["requests==2.0"]`. -/
theorem C5_lock_mode :
    (∀ (entries : List (String × Option String))
        (rest : List (String × List (String × Option String))),
      get_deps_from_pipfile (("default", entries) :: rest) "default"
        = entries.map (fun pd => pd.1 ++ pd.2.getD "")) ∧
    get_deps true [("default", [("requests", some "==2.0")])] ""
      = ["requests==2.0"] := by
  constructor
  · intro entries rest
    simp [get_deps_from_pipfile, dictGetD, dictGet_cons]
  · rfl

/-- C6: a dotted package name discovered under both the sources root and the
resources root stays out of the resources package list and its directory map,
and the resources package list is exactly the discovered resource names minus
the excluded source names. -/
theorem C6_resources_exclusion (src_pkgs res_pkgs : List String)
    (name q folder : String) (hs : name ∈ src_pkgs) :
    name ∉ find_resources_packages res_pkgs src_pkgs ∧
    dictGet (to_packages_dir folder (find_resources_packages res_pkgs src_pkgs)) name
      = none ∧
    (q ∈ find_resources_packages res_pkgs src_pkgs ↔ q ∈ res_pkgs ∧ q ∉ src_pkgs) := by
  have hmem : ∀ r, r ∈ find_resources_packages res_pkgs src_pkgs ↔
      r ∈ res_pkgs ∧ r ∉ src_pkgs := by
    intro r
    simp [find_resources_packages, List.mem_filter, List.contains, List.elem_iff]
  refine ⟨?_, ?_, hmem q⟩
  · intro hcontra
    exact ((hmem name).mp hcontra).2 hs
  · simp only [dictGet, to_packages_dir, Option.map_eq_none', List.find?_eq_none]
    intro x hx
    obtain ⟨pkg, hpkg, rfl⟩ := List.mem_map.mp hx
    have hne : pkg ≠ name := by
      intro hEq
      subst hEq
      exact ((hmem pkg).mp hpkg).2 hs
    simp [hne]

/-- C6 witness: the theorem at a concrete pair of discovery results sharing
the name `shared`. -/
theorem C6_resources_exclusion_witness :
    ("shared" ∈ ["shared"]) ∧
    ("shared" ∉ find_resources_packages ["shared", "res.only"] ["shared"] ∧
     dictGet (to_packages_dir "src/main/resources"
        (find_resources_packages ["shared", "res.only"] ["shared"])) "shared" = none ∧
     ("res.only" ∈ find_resources_packages ["shared", "res.only"] ["shared"] ↔
        "res.only" ∈ ["shared", "res.only"] ∧ "res.only" ∉ ["shared"])) :=
  ⟨by decide,
   C6_resources_exclusion ["shared"] ["shared", "res.only"] "shared" "res.only"
     "src/main/resources" (by decide)⟩

/-- C7: the suite the Test Command's execute phase runs is the top-level
discovery result followed, for each namespace package under the test root
that lacks `__init__.py`, by its scoped discovery result exactly when that
scoped discovery yields at least one test case; in particular a test root
with one classic test module and one marker-less namespace package holding
one test case yields a merged suite containing both. -/
theorem C7_namespace_workaround (root : TestRootModel) :
    test_run_suite root = root.topTests ++
      (root.nsPkgs.filter
          (fun p => !p.hasInitFile && decide (0 < p.scopedTests.length))).flatMap
        (fun p => p.scopedTests) ∧
    test_run_suite ⟨["classic_test"], [⟨"nspkg", false, ["ns_test"]⟩]⟩
      = ["classic_test", "ns_test"] :=
  ⟨add_namespace_pkg_tests_workaround_eq root.nsPkgs root.topTests, rfl⟩

/-- C8: finalizing the Clean command's options with no flag set yields the
same option state as finalizing with only `all` set, and both enable removal
of the build directory, the dist directory and the egg-info directories. -/
theorem C8_clean_default_all :
    clean_finalize_options ⟨false, false, false, false⟩
      = clean_finalize_options ⟨false, false, false, true⟩ ∧
    (clean_finalize_options ⟨false, false, false, false⟩).build = true ∧
    (clean_finalize_options ⟨false, false, false, false⟩).dist = true ∧
    (clean_finalize_options ⟨false, false, false, false⟩).egg_info = true := by
  decide

/-- C9: `_rmdir_if_exists` never errors — on a missing directory it is a
silent no-op — and it is idempotent: it removes exactly the matching
directory, and running it again on the result removes nothing and reports no
error. -/
theorem C9_clean_idempotent (fs : List String) (p : String) :
    rmdir_if_exists fs p = some (fs.filter (fun q => !(q == p))) ∧
    rmdir_if_exists (fs.filter (fun q => !(q == p))) p
      = some (fs.filter (fun q => !(q == p))) := by
  constructor
  · unfold rmdir_if_exists is_dir rmtree
    by_cases h : fs.contains p
    · have hm : p ∈ fs := by simpa [List.contains, List.elem_iff] using h
      simp [h, hm]
    · have hfalse : fs.contains p = false := by simpa using h
      rw [hfalse]
      simp [filter_ne_self_of_not_contains fs p hfalse]
  · unfold rmdir_if_exists is_dir
    rw [contains_filter_ne]
    simp

/-- C10: in lock mode, when the parsed lock file lacks the `default` section
entirely, the Dependency Lister returns the empty list rather than
erroring. -/
theorem C10_missing_default_section
    (pipfile_content : List (String × List (String × Option String)))
    (h : dictGet pipfile_content "default" = none) :
    get_deps_from_pipfile pipfile_content "default" = [] := by
  simp [get_deps_from_pipfile, dictGetD, h]

/-- C10 witness: a lock file holding only a `develop` section. -/
theorem C10_missing_default_section_witness :
    dictGet ([("develop", [("pytest", some "==7.0")])] :
        List (String × List (String × Option String))) "default" = none ∧
    get_deps_from_pipfile [("develop", [("pytest", some "==7.0")])] "default" = [] :=
  ⟨by decide, C10_missing_default_section [("develop", [("pytest", some "==7.0")])]
    (by decide)⟩

end Setup
